import Mathlib

/-!
Verification of the slow-query-log to CSV converter (`src/main.rs`).

The development shallowly embeds the program's line classifier (the statically
compiled regular expressions), the record accumulator / flush engine of `main`,
the query cleanup of `SlowQueryEntry::write_to_csv`, and the timestamp
normalizer `format_log_time`.

Modelling conventions:
* Lines and fields are `String` (a list of `Char`); the matchers work on
  `List Char`.  Input lines are assumed free of `'\n'` (Rust's
  `BufRead::lines` strips line terminators), and the regex character classes
  `\s`, `\d`, `\w` and case folding are modelled on their ASCII fragment,
  which is exact for ASCII log files.
* Each regular expression is hand-translated into a deterministic matcher.
  Determinism is justified because in every pattern a greedy class run
  (`\d+`, `[\d.]+`, `\S+`, `\s+`, `\s*`) is followed by a literal whose first
  character is outside the class, so the backtracking engine admits exactly
  one parse; lazy groups (`(.*?)`) are translated by a leftmost split search,
  and unanchored `find` by a leftmost position scan.
* Rust `u64` fields are `Nat` together with the overflow behaviour of
  `str::parse::<u64>` (values of `2^64` or more fail and default to `0`).
  Rust `f64` fields are modelled as exact rationals: every numeric literal
  exercised by the specification's claims (for example `1.5`, `0.0`) is
  exactly representable in `f64`, where parsing and re-printing are exact.
* The CSV writer is modelled as the list of emitted data rows (the fixed
  header row is not part of `convert`); quoting/escaping is out of scope.
-/

/-- Rust regex `\s` (ASCII fragment): space, tab, newline, vertical tab,
form feed, carriage return.  The same set underlies `str::trim` and
`split_whitespace`. -/
def isWS (c : Char) : Bool :=
  c = ' ' || c = '\t' || c = '\n' || c = '\x0b' || c = '\x0c' || c = '\r'

/-- Rust regex `\w` (ASCII fragment): letters, digits and underscore. -/
def isWordChar (c : Char) : Bool :=
  c.isAlpha || c.isDigit || c = '_'

/-- The backquote character used by the `use` directive pattern. -/
def backquote : Char := Char.ofNat 96

/-- Strip a literal prefix from a character list (regex literal matching). -/
def stripLit : List Char → List Char → Option (List Char)
  | [], s => some s
  | _ :: _, [] => none
  | p :: ps, c :: cs => if c = p then stripLit ps cs else none

/-- Strip a literal prefix case-insensitively (the pattern is given in lower
case); models a `(?i)` literal on ASCII input. -/
def stripLitCI : List Char → List Char → Option (List Char)
  | [], s => some s
  | _ :: _, [] => none
  | p :: ps, c :: cs => if c.toLower = p then stripLitCI ps cs else none

/-- Regex `\s+` followed by a literal starting with a non-whitespace
character: consume the maximal non-empty whitespace run. -/
def wsPlus : List Char → Option (List Char)
  | [] => none
  | c :: rest => if isWS c then some (rest.dropWhile isWS) else none

/-- Rust `str::trim` on the ASCII whitespace fragment. -/
def rustTrimL (l : List Char) : List Char :=
  ((l.dropWhile isWS).reverse.dropWhile isWS).reverse

/-- Rust `str::trim` lifted to `String`. -/
def rustTrim (s : String) : String :=
  String.mk (rustTrimL s.data)

/-- Leftmost split search for a lazy `(.*?)` group followed by the
continuation `k`: returns the characters consumed by the lazy group together
with `k`'s result at the earliest split.  The lazy group is built from `.`,
so it cannot cross a newline. -/
def findSplitDot {α : Type} (k : List Char → Option α) : List Char → Option (List Char × α)
  | [] => (k []).map (fun a => ([], a))
  | c :: rest =>
    match k (c :: rest) with
    | some a => some ([], a)
    | none =>
      if c = '\n' then none
      else (findSplitDot k rest).map (fun p => (c :: p.1, p.2))

/-- Leftmost unanchored `Regex::find`: `m` is an anchored matcher returning
the suffix after its match; the result is `(before, matched, after)`. -/
def findPat (m : List Char → Option (List Char)) : List Char → Option (List Char × List Char × List Char)
  | [] =>
    match m [] with
    | some rem => some ([], [], rem)
    | none => none
  | c :: rest =>
    match m (c :: rest) with
    | some rem => some ([], (c :: rest).take ((c :: rest).length - rem.length), rem)
    | none => (findPat m rest).map (fun t => (c :: t.1, t.2.1, t.2.2))

/-! Literal fragments of the statically compiled regular expressions. -/

def litTime : List Char := "# Time: ".data
def litUserHost : List Char := "# User@Host: ".data
def litAtSep : List Char := " @".data
def litThreadId : List Char := "# Thread_id: ".data
def litSchema : List Char := "Schema: ".data
def litQcHit : List Char := "QC_hit: ".data
def litQueryTime : List Char := "# Query_time: ".data
def litLockTime : List Char := "Lock_time: ".data
def litRowsSent : List Char := "Rows_sent: ".data
def litRowsExamined : List Char := "Rows_examined: ".data
def litRowsAffected : List Char := "# Rows_affected: ".data
def litBytesSent : List Char := "Bytes_sent: ".data
def litTmpTables : List Char := "# Tmp_tables: ".data
def litTmpDiskTables : List Char := "Tmp_disk_tables: ".data
def litTmpTableSizes : List Char := "Tmp_table_sizes: ".data
def litFullScan : List Char := "# Full_scan: ".data
def litFullJoin : List Char := "Full_join: ".data
def litTmpTable : List Char := "Tmp_table: ".data
def litTmpTableOnDisk : List Char := "Tmp_table_on_disk: ".data
def litFilesort : List Char := "# Filesort: ".data
def litFilesortOnDisk : List Char := "Filesort_on_disk: ".data
def litMergePasses : List Char := "Merge_passes: ".data
def litPriorityQueue : List Char := "Priority_queue: ".data
def litSetTimestamp : List Char := "set timestamp=".data
def litUse : List Char := "use ".data
def litStartedWith : List Char := "started with:".data
def litTcpPort : List Char := "Tcp port:".data
def litTimeWord : List Char := "Time".data
def litIdWord : List Char := "Id".data
def litCommandWord : List Char := "Command".data

/-- `RE_TIME`: regex `^# Time: (.*)`; the capture is everything after the
marker up to a newline (`.` does not match `'\n'`). -/
def reTime (line : String) : Option String :=
  (stripLit litTime line.data).map (fun r => String.mk (r.takeWhile (· ≠ '\n')))

/-- `RE_USER_HOST`: regex `^# User@Host: (.*?) @\s*(.*)`.  The lazy first
capture ends at the first occurrence of a space followed by an at sign; the
greedy `\s*` then swallows the maximal whitespace run before the second
capture. -/
def reUserHost (line : String) : Option (String × String) :=
  match stripLit litUserHost line.data with
  | none => none
  | some s =>
    match findSplitDot (stripLit litAtSep) s with
    | none => none
    | some (u, rest) =>
      some (String.mk u, String.mk ((rest.dropWhile isWS).takeWhile (· ≠ '\n')))

/-- Continuation of the lazy group in `RE_METADATA_1`:
regex fragment `\s+QC_hit: (\S+)`. -/
def qcTail (t : List Char) : Option (List Char) :=
  match wsPlus t with
  | none => none
  | some t₁ =>
    match stripLit litQcHit t₁ with
    | none => none
    | some t₂ =>
      let q := t₂.takeWhile (fun c => !isWS c)
      if q.isEmpty then none else some q

/-- `RE_METADATA_1`: regex `^# Thread_id: (\d+)\s+Schema: (.*?)\s+QC_hit: (\S+)`. -/
def reMetadata1 (line : String) : Option (String × String × String) :=
  match stripLit litThreadId line.data with
  | none => none
  | some s =>
    if (s.takeWhile Char.isDigit).isEmpty then none
    else
      match wsPlus (s.dropWhile Char.isDigit) with
      | none => none
      | some s₁ =>
        match stripLit litSchema s₁ with
        | none => none
        | some s₂ =>
          match findSplitDot qcTail s₂ with
          | none => none
          | some (sch, qc) =>
            some (String.mk (s.takeWhile Char.isDigit), String.mk sch, String.mk qc)

/-- Regex class `[\d.]`. -/
def isNumDot (c : Char) : Bool := c.isDigit || c = '.'

/-- Greedy `(\d+)` capture followed by the rest of the input. -/
def digitsPlus (s : List Char) : Option (List Char × List Char) :=
  if (s.takeWhile Char.isDigit).isEmpty then none
  else some (s.takeWhile Char.isDigit, s.dropWhile Char.isDigit)

/-- Greedy `([\d.]+)` capture followed by the rest of the input. -/
def numDotPlus (s : List Char) : Option (List Char × List Char) :=
  if (s.takeWhile isNumDot).isEmpty then none
  else some (s.takeWhile isNumDot, s.dropWhile isNumDot)

/-- Greedy `(\S+)` capture followed by the rest of the input. -/
def nonWsPlus (s : List Char) : Option (List Char × List Char) :=
  if (s.takeWhile (fun c => !isWS c)).isEmpty then none
  else some (s.takeWhile (fun c => !isWS c), s.dropWhile (fun c => !isWS c))

/-- `RE_METADATA_2`: regex
`^# Query_time: ([\d.]+)\s+Lock_time: ([\d.]+)\s+Rows_sent: (\d+)\s+Rows_examined: (\d+)`. -/
def reMetadata2 (line : String) : Option (String × String × String × String) :=
  match stripLit litQueryTime line.data with
  | none => none
  | some s =>
    match numDotPlus s with
    | none => none
    | some (qt, s) =>
      match wsPlus s >>= stripLit litLockTime with
      | none => none
      | some s =>
        match numDotPlus s with
        | none => none
        | some (lt, s) =>
          match wsPlus s >>= stripLit litRowsSent with
          | none => none
          | some s =>
            match digitsPlus s with
            | none => none
            | some (rs, s) =>
              match wsPlus s >>= stripLit litRowsExamined with
              | none => none
              | some s =>
                match digitsPlus s with
                | none => none
                | some (rex, _) =>
                  some (String.mk qt, String.mk lt, String.mk rs, String.mk rex)

/-- `RE_METADATA_3`: regex `^# Rows_affected: (\d+)\s+Bytes_sent: (\d+)`. -/
def reMetadata3 (line : String) : Option (String × String) :=
  match stripLit litRowsAffected line.data with
  | none => none
  | some s =>
    match digitsPlus s with
    | none => none
    | some (ra, s) =>
      match wsPlus s >>= stripLit litBytesSent with
      | none => none
      | some s =>
        match digitsPlus s with
        | none => none
        | some (bs, _) => some (String.mk ra, String.mk bs)

/-- `RE_METADATA_4`: regex
`^# Tmp_tables: (\d+)\s+Tmp_disk_tables: (\d+)\s+Tmp_table_sizes: (\d+)`. -/
def reMetadata4 (line : String) : Option (String × String × String) :=
  match stripLit litTmpTables line.data with
  | none => none
  | some s =>
    match digitsPlus s with
    | none => none
    | some (a, s) =>
      match wsPlus s >>= stripLit litTmpDiskTables with
      | none => none
      | some s =>
        match digitsPlus s with
        | none => none
        | some (b, s) =>
          match wsPlus s >>= stripLit litTmpTableSizes with
          | none => none
          | some s =>
            match digitsPlus s with
            | none => none
            | some (c, _) => some (String.mk a, String.mk b, String.mk c)

/-- `RE_METADATA_5`: regex
`^# Full_scan: (\S+)\s+Full_join: (\S+)\s+Tmp_table: (\S+)\s+Tmp_table_on_disk: (\S+)`. -/
def reMetadata5 (line : String) : Option (String × String × String × String) :=
  match stripLit litFullScan line.data with
  | none => none
  | some s =>
    match nonWsPlus s with
    | none => none
    | some (a, s) =>
      match wsPlus s >>= stripLit litFullJoin with
      | none => none
      | some s =>
        match nonWsPlus s with
        | none => none
        | some (b, s) =>
          match wsPlus s >>= stripLit litTmpTable with
          | none => none
          | some s =>
            match nonWsPlus s with
            | none => none
            | some (c, s) =>
              match wsPlus s >>= stripLit litTmpTableOnDisk with
              | none => none
              | some s =>
                match nonWsPlus s with
                | none => none
                | some (d, _) => some (String.mk a, String.mk b, String.mk c, String.mk d)

/-- `RE_METADATA_6`: regex
`^# Filesort: (\S+)\s+Filesort_on_disk: (\S+)\s+Merge_passes: (\d+)\s+Priority_queue: (\S+)`. -/
def reMetadata6 (line : String) : Option (String × String × String × String) :=
  match stripLit litFilesort line.data with
  | none => none
  | some s =>
    match nonWsPlus s with
    | none => none
    | some (a, s) =>
      match wsPlus s >>= stripLit litFilesortOnDisk with
      | none => none
      | some s =>
        match nonWsPlus s with
        | none => none
        | some (b, s) =>
          match wsPlus s >>= stripLit litMergePasses with
          | none => none
          | some s =>
            match digitsPlus s with
            | none => none
            | some (c, s) =>
              match wsPlus s >>= stripLit litPriorityQueue with
              | none => none
              | some s =>
                match nonWsPlus s with
                | none => none
                | some (d, _) => some (String.mk a, String.mk b, String.mk c, String.mk d)

/-- `RE_SKIPPED_1`: regex `started with:\s*$` — the line, with trailing
whitespace discarded, ends with the marker. -/
def reSkipped1 (line : String) : Bool :=
  (stripLit litStartedWith.reverse (line.data.reverse.dropWhile isWS)).isSome

/-- `RE_SKIPPED_2`: regex `^((Tcp port:)|(Time\s+Id\s+Command))`. -/
def reSkipped2 (line : String) : Bool :=
  (stripLit litTcpPort line.data).isSome ||
    (stripLit litTimeWord line.data >>= wsPlus >>= stripLit litIdWord >>=
      wsPlus >>= stripLit litCommandWord).isSome

/-- Anchored matcher for `RE_SET_TIMESTAMP_EXTRACT`:
regex `(?i)\s*SET timestamp=\d+;\s*`; returns the suffix after the match. -/
def matchSetTs (s : List Char) : Option (List Char) :=
  match stripLitCI litSetTimestamp (s.dropWhile isWS) with
  | none => none
  | some r =>
    match digitsPlus r with
    | none => none
    | some (_, r₁) =>
      match r₁ with
      | ';' :: t => some (t.dropWhile isWS)
      | _ => none

/-- Anchored matcher for `RE_USE_SCHEMA_EXTRACT`:
regex `(?i)\s*use ` followed by an optionally backquoted identifier and a
semicolon, then `\s*`; returns the suffix after the match. -/
def matchUse (s : List Char) : Option (List Char) :=
  match stripLitCI litUse (s.dropWhile isWS) with
  | none => none
  | some r =>
    let r₁ := match r with
      | c :: t => if c = backquote then t else c :: t
      | [] => []
    let w := r₁.takeWhile isWordChar
    if w.isEmpty then none
    else
      let r₂ := r₁.dropWhile isWordChar
      let r₃ := match r₂ with
        | c :: t => if c = backquote then t else c :: t
        | [] => []
      match r₃ with
      | ';' :: t => some (t.dropWhile isWS)
      | _ => none

/-- Classification of one input line, mirroring the if/else-if chain of
`main` (lines 265–331): skip patterns first, then the header regexes in
order, then body text, and otherwise nothing. -/
inductive LineKind where
  | skipped : LineKind
  | timeHdr (cap : String) : LineKind
  | userHost (c1 c2 : String) : LineKind
  | meta1 (tid sch qc : String) : LineKind
  | meta2 (qt lt rs rex : String) : LineKind
  | meta3 (ra bs : String) : LineKind
  | meta4 (a b c : String) : LineKind
  | meta5 (a b c d : String) : LineKind
  | meta6 (a b c d : String) : LineKind
  | body : LineKind
  | other : LineKind
deriving DecidableEq

/-- Rust `line.starts_with('#')`. -/
def startsHash (line : String) : Bool :=
  match line.data with
  | c :: _ => c = '#'
  | [] => false

/-- The line classifier: the priority chain of `main`'s processing loop. -/
def classify (line : String) : LineKind :=
  if reSkipped1 line || reSkipped2 line then .skipped
  else match reTime line with
  | some cap => .timeHdr cap
  | none =>
    match reUserHost line with
    | some (c1, c2) => .userHost c1 c2
    | none =>
      match reMetadata1 line with
      | some (tid, sch, qc) => .meta1 tid sch qc
      | none =>
        match reMetadata2 line with
        | some (qt, lt, rs, rex) => .meta2 qt lt rs rex
        | none =>
          match reMetadata3 line with
          | some (ra, bs) => .meta3 ra bs
          | none =>
            match reMetadata4 line with
            | some (a, b, c) => .meta4 a b c
            | none =>
              match reMetadata5 line with
              | some (a, b, c, d) => .meta5 a b c d
              | none =>
                match reMetadata6 line with
                | some (a, b, c, d) => .meta6 a b c d
                | none =>
                  if !startsHash line && !(rustTrim line).isEmpty then .body
                  else .other

/-- Numeric value of a digit string. -/
def natOfDigits (l : List Char) : Nat :=
  l.foldl (fun a c => a * 10 + (c.toNat - 48)) 0

/-- Rust `caps.get(n).map_or(0, |m| m.as_str().parse::<u64>().unwrap_or(0))`
on a `(\d+)` capture: the parse fails exactly on overflow, defaulting to 0. -/
def u64cap (s : String) : Nat :=
  let n := natOfDigits s.data
  if n < 18446744073709551616 then n else 0

/-- Rust `str::parse::<f64>` on a `[\d.]+` capture, modelled exactly over
the rationals: at most one dot and at least one digit; the value of
`ip.rest` is the integer formed by all the digits divided by
`10 ^ |rest|` (that is, `ip + rest / 10 ^ |rest|`), built with
`Rat.normalize` so that the kernel can evaluate it. -/
def parseDec (l : List Char) : Option ℚ :=
  let ip := l.takeWhile Char.isDigit
  match l.dropWhile Char.isDigit with
  | [] => if ip.isEmpty then none else some (Rat.normalize (natOfDigits ip) 1)
  | '.' :: rest =>
    if rest.all Char.isDigit then
      if ip.isEmpty && rest.isEmpty then none
      else some (Rat.normalize (natOfDigits (ip ++ rest)) (10 ^ rest.length) (by positivity))
    else none
  | _ => none

/-- Rust `caps.get(n).map_or(0.0, |m| m.as_str().parse::<f64>().unwrap_or(0.0))`. -/
def f64cap (s : String) : ℚ :=
  (parseDec s.data).getD 0

/-- The `SlowQueryEntry` struct (`src/main.rs` lines 63–89). -/
structure SlowQueryEntry where
  time : String
  user : String
  host : String
  thread_id : String
  schema : String
  qc_hit : String
  query_time : ℚ
  lock_time : ℚ
  rows_sent : Nat
  rows_examined : Nat
  rows_affected : Nat
  bytes_sent : Nat
  query : String
  tmp_tables : Nat
  tmp_disk_tables : Nat
  tmp_table_sizes : Nat
  full_scan : String
  full_join : String
  tmp_table : String
  tmp_table_on_disk : String
  filesort : String
  filesort_on_disk : String
  merge_passes : Nat
  priority_queue : String
deriving DecidableEq

/-- `SlowQueryEntry::default()`: empty strings and zero numbers. -/
def SlowQueryEntry.mkDefault : SlowQueryEntry :=
  { time := "", user := "", host := "", thread_id := "", schema := "", qc_hit := ""
    query_time := 0, lock_time := 0, rows_sent := 0, rows_examined := 0
    rows_affected := 0, bytes_sent := 0, query := ""
    tmp_tables := 0, tmp_disk_tables := 0, tmp_table_sizes := 0
    full_scan := "", full_join := "", tmp_table := "", tmp_table_on_disk := ""
    filesort := "", filesort_on_disk := "", merge_passes := 0, priority_queue := "" }

/-- `SlowQueryEntry::is_valid` (lines 176–178): the thread id is non-empty. -/
def SlowQueryEntry.is_valid (e : SlowQueryEntry) : Bool :=
  !(e.thread_id = "")

/-- Result of the query cleanup performed inside `write_to_csv`
(lines 98–128). -/
structure CleanResult where
  set_timestamp_str : String
  use_schema_str : String
  remaining_query : String
deriving DecidableEq

/-- The query cleanup of `write_to_csv`: extract the trimmed text of the
first `SET timestamp` and first `use` schema matches of the original buffer,
then splice the first `SET timestamp` match out of the buffer and the first
`use` match out of that result. -/
def cleanupQuery (query : String) : CleanResult :=
  let set_timestamp_str :=
    match findPat matchSetTs query.data with
    | some t => String.mk (rustTrimL t.2.1)
    | none => ""
  let use_schema_str :=
    match findPat matchUse query.data with
    | some t => String.mk (rustTrimL t.2.1)
    | none => ""
  let r₁ :=
    match findPat matchSetTs query.data with
    | some t => t.1 ++ t.2.2
    | none => query.data
  let r₂ :=
    match findPat matchUse r₁ with
    | some t => t.1 ++ t.2.2
    | none => r₁
  { set_timestamp_str := set_timestamp_str
    use_schema_str := use_schema_str
    remaining_query := String.mk r₂ }

/-- One emitted CSV data row (the record written by `write_to_csv`,
lines 143–170), with numeric fields kept as numbers. -/
structure CsvRow where
  time : String
  user : String
  host : String
  thread_id : String
  schema : String
  qc_hit : String
  set_timestamp : String
  use_schema : String
  query : String
  query_time : ℚ
  lock_time : ℚ
  rows_sent : Nat
  rows_examined : Nat
  rows_affected : Nat
  bytes_sent : Nat
  tmp_tables : Nat
  tmp_disk_tables : Nat
  tmp_table_sizes : Nat
  full_scan : String
  full_join : String
  tmp_table : String
  tmp_table_on_disk : String
  filesort : String
  filesort_on_disk : String
  merge_passes : Nat
  priority_queue : String
deriving DecidableEq

/-- `SlowQueryEntry::write_to_csv` (lines 94–172): clean the query buffer
and emit one row. -/
def SlowQueryEntry.write_to_csv (e : SlowQueryEntry) : CsvRow :=
  let c := cleanupQuery e.query
  { time := e.time, user := e.user, host := e.host, thread_id := e.thread_id
    schema := e.schema, qc_hit := e.qc_hit
    set_timestamp := c.set_timestamp_str
    use_schema := c.use_schema_str
    query := c.remaining_query
    query_time := e.query_time, lock_time := e.lock_time
    rows_sent := e.rows_sent, rows_examined := e.rows_examined
    rows_affected := e.rows_affected, bytes_sent := e.bytes_sent
    tmp_tables := e.tmp_tables, tmp_disk_tables := e.tmp_disk_tables
    tmp_table_sizes := e.tmp_table_sizes
    full_scan := e.full_scan, full_join := e.full_join
    tmp_table := e.tmp_table, tmp_table_on_disk := e.tmp_table_on_disk
    filesort := e.filesort, filesort_on_disk := e.filesort_on_disk
    merge_passes := e.merge_passes, priority_queue := e.priority_queue }

/-- Rust `split_whitespace`: the maximal non-whitespace words of a string. -/
def splitWsL (l : List Char) : List (List Char) :=
  (l.foldr
    (fun c acc =>
      if isWS c then [] :: acc
      else
        match acc with
        | [] => [[c]]
        | w :: ws => (c :: w) :: ws)
    []).filter (· ≠ [])

/-- Chrono numeric item parsing, `scan::number(s, 1, 2)`: one or two digits,
greedily. -/
def num12 : List Char → Option (Nat × List Char)
  | [] => none
  | c :: rest =>
    if c.isDigit then
      match rest with
      | d :: rest₂ =>
        if d.isDigit then some ((c.toNat - 48) * 10 + (d.toNat - 48), rest₂)
        else some (c.toNat - 48, rest)
      | [] => some (c.toNat - 48, [])
    else none

def isLeapYear (y : Nat) : Bool :=
  (y % 4 = 0 && y % 100 ≠ 0) || y % 400 = 0

def daysInMonth (y m : Nat) : Nat :=
  if m = 2 then (if isLeapYear y then 29 else 28)
  else if m = 4 || m = 6 || m = 9 || m = 11 then 30
  else 31

/-- Left-pad with digits: the last two decimal digits (chrono `%M`-style
two-digit zero-padded field; exact for values below 100, which covers every
value the parser admits). -/
def pad2 (n : Nat) : List Char :=
  [Nat.digitChar (n / 10 % 10), Nat.digitChar (n % 10)]

/-- Four-digit zero-padded field (chrono `%Y`; exact for years between 1000
and 9999, which covers the 1969–2068 range produced by `%y`). -/
def pad4 (n : Nat) : List Char :=
  [Nat.digitChar (n / 1000 % 10), Nat.digitChar (n / 100 % 10),
   Nat.digitChar (n / 10 % 10), Nat.digitChar (n % 10)]

/-- Chrono format `%Y-%m-%d %H:%M:%S`. -/
def fmtTs (y mo d h mi s : Nat) : String :=
  String.mk (pad4 y ++ '-' :: pad2 mo ++ '-' :: pad2 d ++ ' ' :: pad2 h ++
    ':' :: pad2 mi ++ ':' :: pad2 s)

/-- `format_log_time` (lines 201–205): join the whitespace-separated words
with single spaces, parse with chrono format `"%y%m%d %H:%M:%S"`, and
re-format as `"%Y-%m-%d %H:%M:%S"`.  Chrono's parser trims leading
whitespace before every numeric field (and at the format's literal space),
while literal `:` must match exactly; a two-digit year maps 00–68 ↦
2000–2068 and 69–99 ↦ 1969–1999; the date is calendar-validated; a second
of 60 is chrono's leap second; any unconsumed input is an error. -/
def format_log_time (log_time : String) : Option String :=
  let combined := List.intercalate [' '] (splitWsL log_time.data)
  match num12 (combined.dropWhile isWS) with
  | none => none
  | some (yy, s) =>
    match num12 (s.dropWhile isWS) with
    | none => none
    | some (mo, s) =>
      match num12 (s.dropWhile isWS) with
      | none => none
      | some (dd, s) =>
        match num12 (s.dropWhile isWS) with
        | none => none
        | some (hh, s) =>
          match s with
          | ':' :: s =>
            match num12 (s.dropWhile isWS) with
            | none => none
            | some (mi, s) =>
              match s with
              | ':' :: s =>
                match num12 (s.dropWhile isWS) with
                | none => none
                | some (ss, s) =>
                  if !s.isEmpty then none
                  else
                    if 1 ≤ mo && mo ≤ 12 && 1 ≤ dd &&
                        dd ≤ daysInMonth (if yy ≤ 68 then 2000 + yy else 1900 + yy) mo &&
                        hh ≤ 23 && mi ≤ 59 && ss ≤ 60 then
                      some (fmtTs (if yy ≤ 68 then 2000 + yy else 1900 + yy) mo dd hh mi ss)
                    else none
              | _ => none
          | _ => none

/-- Rust `trim_matches(|c| c == '[' || c == ']' || c == ' ')`. -/
def isHostTrimChar (c : Char) : Bool :=
  c = '[' || c = ']' || c = ' '

def trimHostL (l : List Char) : List Char :=
  ((l.dropWhile isHostTrimChar).reverse.dropWhile isHostTrimChar).reverse

/-- The mutable state of `main`'s processing loop: the record in progress,
the sticky time, and the rows written so far (`entry_count` is their
length). -/
structure ConvState where
  current_entry : SlowQueryEntry
  last_seen_time : String
  rows : List CsvRow
deriving DecidableEq

def initState : ConvState :=
  { current_entry := SlowQueryEntry.mkDefault, last_seen_time := "", rows := [] }

/-- One iteration of `main`'s loop body (lines 262–332). -/
def stepLine (st : ConvState) (line : String) : ConvState :=
  match classify line with
  | .skipped => st
  | .timeHdr cap =>
    let raw_time := rustTrim cap
    { st with last_seen_time := (format_log_time raw_time).getD raw_time }
  | .userHost c1 c2 =>
    let rows' :=
      if st.current_entry.is_valid then st.rows ++ [st.current_entry.write_to_csv]
      else st.rows
    let user_full := rustTrim c1
    let host_full := rustTrim c2
    { current_entry :=
        { SlowQueryEntry.mkDefault with
          time := st.last_seen_time
          user := String.mk (user_full.data.takeWhile (· ≠ '['))
          host := String.mk (trimHostL host_full.data) }
      last_seen_time := st.last_seen_time
      rows := rows' }
  | .meta1 tid sch qc =>
    { st with current_entry :=
        { st.current_entry with
          thread_id := tid, schema := rustTrim sch, qc_hit := rustTrim qc } }
  | .meta2 qt lt rs rex =>
    { st with current_entry :=
        { st.current_entry with
          query_time := f64cap qt, lock_time := f64cap lt
          rows_sent := u64cap rs, rows_examined := u64cap rex } }
  | .meta3 ra bs =>
    { st with current_entry :=
        { st.current_entry with rows_affected := u64cap ra, bytes_sent := u64cap bs } }
  | .meta4 a b c =>
    { st with current_entry :=
        { st.current_entry with
          tmp_tables := u64cap a, tmp_disk_tables := u64cap b, tmp_table_sizes := u64cap c } }
  | .meta5 a b c d =>
    { st with current_entry :=
        { st.current_entry with
          full_scan := rustTrim a, full_join := rustTrim b
          tmp_table := rustTrim c, tmp_table_on_disk := rustTrim d } }
  | .meta6 a b c d =>
    { st with current_entry :=
        { st.current_entry with
          filesort := rustTrim a, filesort_on_disk := rustTrim b
          merge_passes := u64cap c, priority_queue := rustTrim d } }
  | .body =>
    { st with current_entry :=
        { st.current_entry with query := st.current_entry.query ++ line ++ "\n" } }
  | .other => st

/-- The whole run of `main` on an input: fold the loop body over the lines
and perform the final flush (lines 334–337). -/
def processLines (lines : List String) : ConvState :=
  let st := lines.foldl stepLine initState
  if st.current_entry.is_valid then { st with rows := st.rows ++ [st.current_entry.write_to_csv] }
  else st

/-- The emitted data rows (everything after the header row). -/
def convert (lines : List String) : List CsvRow :=
  (processLines lines).rows

/-! Specification-side accounting.

The input is divided into record segments: segment 0 is the implicit initial
record (`current_entry` starts as a default record before any connection
header), and every connection-header line closes the previous segment and
opens the next one.  A segment is valid when a `Thread_id` metadata line
occurs inside it, which is the only way `thread_id` becomes non-empty. -/

/-- Step of the segment-counting machine: `(next segment index, current
segment has seen a Thread_id line, indices of finished valid segments)`. -/
def countStep (t : Nat × Bool × List Nat) (line : String) : Nat × Bool × List Nat :=
  match classify line with
  | .userHost _ _ => (t.1 + 1, false, if t.2.1 then t.2.2 ++ [t.1] else t.2.2)
  | .meta1 _ _ _ => (t.1, true, t.2.2)
  | _ => t

/-- The indices of the valid record segments of an input, in order. -/
def validSegs (lines : List String) : List Nat :=
  let t := lines.foldl countStep (0, false, [])
  if t.2.1 then t.2.2 ++ [t.1] else t.2.2

/-- The count stated by the claim, following the specification's words: the
number of connection-header lines whose resulting record is valid (has a
non-empty thread id) by the end of input.  The record started by the i-th
connection header is exactly segment i (for `i ≥ 1`); segment 0 is not
started by any connection header. -/
def specConnValidRowCount (lines : List String) : Nat :=
  ((validSegs lines).filter (fun i => 0 < i)).length

/-- Ghost-instrumented loop state: the concrete state plus the index of the
segment whose record is currently in progress and the segment indices of
every record flushed so far, in emission order. -/
structure GhostState where
  base : ConvState
  seg : Nat
  flushed : List Nat

/-- Ghost-instrumented loop body: behaves as `stepLine` on `base` and
records which in-progress record each flush emits. -/
def stepLineG (g : GhostState) (line : String) : GhostState :=
  match classify line with
  | .userHost _ _ =>
    { base := stepLine g.base line
      seg := g.seg + 1
      flushed := if g.base.current_entry.is_valid then g.flushed ++ [g.seg] else g.flushed }
  | _ => { g with base := stepLine g.base line }

/-- Ghost-instrumented whole run, including the final flush. -/
def ghostRun (lines : List String) : GhostState :=
  let g := lines.foldl stepLineG { base := initState, seg := 0, flushed := [] }
  if g.base.current_entry.is_valid then
    { base := { g.base with rows := g.base.rows ++ [g.base.current_entry.write_to_csv] }
      seg := g.seg
      flushed := g.flushed ++ [g.seg] }
  else g

/-- Discriminators for line kinds (decidable forms used in hypotheses). -/
def LineKind.isUserHostB : LineKind → Bool
  | .userHost _ _ => true
  | _ => false

def LineKind.isMeta1B : LineKind → Bool
  | .meta1 _ _ _ => true
  | _ => false

def LineKind.isTimeB : LineKind → Bool
  | .timeHdr _ => true
  | _ => false

/-- Shape check for a normalized `yyyy-mm-dd HH:MM:SS` timestamp. -/
def isNormalizedTs (r : String) : Bool :=
  match r.data with
  | [y1, y2, y3, y4, d1, m1, m2, d2, t1, t2, sp, h1, h2, c1, n1, n2, c2, s1, s2] =>
    y1.isDigit && y2.isDigit && y3.isDigit && y4.isDigit && d1 = '-' &&
    m1.isDigit && m2.isDigit && d2 = '-' && t1.isDigit && t2.isDigit &&
    sp = ' ' && h1.isDigit && h2.isDigit && c1 = ':' && n1.isDigit && n2.isDigit &&
    c2 = ':' && s1.isDigit && s2.isDigit
  | _ => false

/-! Helper lemmas. -/

theorem strMk_eq_empty_iff (l : List Char) : String.mk l = "" ↔ l = [] := by
  constructor
  · intro h
    have := congrArg String.data h
    simpa using this
  · intro h
    subst h
    rfl

/-- A `(\d+)` capture of `RE_METADATA_1` is a non-empty string. -/
theorem reMetadata1_tid_ne {line tid sch qc : String}
    (h : reMetadata1 line = some (tid, sch, qc)) : tid ≠ "" := by
  unfold reMetadata1 at h
  repeat
    split at h
    · exact absurd h (by simp)
  obtain ⟨rfl, rfl, rfl⟩ : String.mk _ = tid ∧ String.mk _ = sch ∧ String.mk _ = qc := by
    simpa using h
  simp only [ne_eq, strMk_eq_empty_iff]
  intro hnil
  simp_all

/-- Classification inversion: a `meta1` classification comes from a
successful `RE_METADATA_1` match. -/
theorem classify_meta1_some {line tid sch qc : String}
    (h : classify line = .meta1 tid sch qc) : reMetadata1 line = some (tid, sch, qc) := by
  unfold classify at h
  repeat' split at h
  all_goals simp_all

/-- The thread-id carried by a `meta1` classification is non-empty. -/
theorem classify_meta1_tid_ne {line tid sch qc : String}
    (h : classify line = .meta1 tid sch qc) : tid ≠ "" :=
  reMetadata1_tid_ne (classify_meta1_some h)

/-- Relation between the loop state and the segment-counting machine:
validity of the in-progress record matches the `Thread_id`-seen flag and the
number of written rows matches the number of recorded valid segments. -/
def SRel (st : ConvState) (t : Nat × Bool × List Nat) : Prop :=
  st.current_entry.is_valid = t.2.1 ∧ st.rows.length = t.2.2.length

theorem stepLine_SRel (st : ConvState) (t : Nat × Bool × List Nat) (line : String)
    (h : SRel st t) : SRel (stepLine st line) (countStep t line) := by
  obtain ⟨h1, h2⟩ := h
  cases hc : classify line with
  | userHost c1 c2 =>
    refine ⟨?_, ?_⟩
    · simp [stepLine, hc, SlowQueryEntry.is_valid, SlowQueryEntry.mkDefault, countStep]
    · simp only [stepLine, hc, countStep, h1]
      cases hb : t.2.1 <;> simp [hb, h1, h2, hb ▸ h1]
  | meta1 tid sch qc =>
    have htid : tid ≠ "" := classify_meta1_tid_ne hc
    refine ⟨?_, ?_⟩
    · simp [stepLine, hc, SlowQueryEntry.is_valid, countStep, htid]
    · simp [stepLine, hc, countStep, h2]
  | skipped => exact ⟨by simp [stepLine, hc, countStep, h1], by simp [stepLine, hc, countStep, h2]⟩
  | timeHdr cap => exact ⟨by simp [stepLine, hc, countStep, h1], by simp [stepLine, hc, countStep, h2]⟩
  | meta2 a b c d => exact ⟨by simpa [stepLine, hc, countStep, SlowQueryEntry.is_valid] using h1, by simp [stepLine, hc, countStep, h2]⟩
  | meta3 a b => exact ⟨by simpa [stepLine, hc, countStep, SlowQueryEntry.is_valid] using h1, by simp [stepLine, hc, countStep, h2]⟩
  | meta4 a b c => exact ⟨by simpa [stepLine, hc, countStep, SlowQueryEntry.is_valid] using h1, by simp [stepLine, hc, countStep, h2]⟩
  | meta5 a b c d => exact ⟨by simpa [stepLine, hc, countStep, SlowQueryEntry.is_valid] using h1, by simp [stepLine, hc, countStep, h2]⟩
  | meta6 a b c d => exact ⟨by simpa [stepLine, hc, countStep, SlowQueryEntry.is_valid] using h1, by simp [stepLine, hc, countStep, h2]⟩
  | body => exact ⟨by simpa [stepLine, hc, countStep, SlowQueryEntry.is_valid] using h1, by simp [stepLine, hc, countStep, h2]⟩
  | other => exact ⟨by simp [stepLine, hc, countStep, h1], by simp [stepLine, hc, countStep, h2]⟩

theorem foldl_SRel (lines : List String) (st : ConvState) (t : Nat × Bool × List Nat)
    (h : SRel st t) :
    SRel (lines.foldl stepLine st) (lines.foldl countStep t) := by
  induction lines generalizing st t with
  | nil => exact h
  | cons l ls ih => exact ih _ _ (stepLine_SRel _ _ _ h)

theorem SRel_init : SRel initState (0, false, []) := by
  constructor
  · decide
  · rfl

/-- Relation between the ghost-instrumented state and the segment-counting
machine. -/
def GRel (g : GhostState) (t : Nat × Bool × List Nat) : Prop :=
  SRel g.base t ∧ g.seg = t.1 ∧ g.flushed = t.2.2

theorem stepLineG_base (g : GhostState) (line : String) :
    (stepLineG g line).base = stepLine g.base line := by
  cases hc : classify line <;> simp [stepLineG, hc]

theorem stepLineG_GRel (g : GhostState) (t : Nat × Bool × List Nat) (line : String)
    (h : GRel g t) : GRel (stepLineG g line) (countStep t line) := by
  obtain ⟨hs, h2, h3⟩ := h
  refine ⟨?_, ?_, ?_⟩
  · rw [stepLineG_base]
    exact stepLine_SRel g.base t line hs
  · cases hc : classify line <;> simp [stepLineG, countStep, hc, h2]
  · cases hc : classify line <;> simp [stepLineG, countStep, hc, h2, h3, hs.1]

theorem foldlG_GRel (lines : List String) (g : GhostState) (t : Nat × Bool × List Nat)
    (h : GRel g t) :
    GRel (lines.foldl stepLineG g) (lines.foldl countStep t) := by
  induction lines generalizing g t with
  | nil => exact h
  | cons l ls ih => exact ih _ _ (stepLineG_GRel _ _ _ h)

theorem foldlG_base (lines : List String) (g : GhostState) :
    (lines.foldl stepLineG g).base = lines.foldl stepLine g.base := by
  induction lines generalizing g with
  | nil => rfl
  | cons l ls ih => rw [List.foldl_cons, List.foldl_cons, ih, stepLineG_base]

/-- Strict monotonicity invariant of the segment-counting machine. -/
theorem countStep_TInv (t : Nat × Bool × List Nat) (line : String)
    (h1 : List.Pairwise (· < ·) t.2.2) (h2 : ∀ x ∈ t.2.2, x < t.1) :
    List.Pairwise (· < ·) (countStep t line).2.2 ∧
      ∀ x ∈ (countStep t line).2.2, x < (countStep t line).1 := by
  cases hc : classify line with
  | userHost c1 c2 =>
    cases hb : t.2.1 with
    | false =>
      refine ⟨by simpa [countStep, hc, hb] using h1, ?_⟩
      intro x hx
      simp only [countStep, hc, hb] at hx ⊢
      exact Nat.lt_succ_of_lt (h2 x (by simpa using hx))
    | true =>
      constructor
      · simp only [countStep, hc, hb, if_pos]
        rw [List.pairwise_append]
        refine ⟨h1, List.pairwise_singleton _ _, ?_⟩
        intro a ha b hb'
        simp only [List.mem_singleton] at hb'
        subst hb'
        exact h2 a ha
      · intro x hx
        simp only [countStep, hc, hb, if_pos, List.mem_append, List.mem_singleton] at hx ⊢
        rcases hx with hx | rfl
        · exact Nat.lt_succ_of_lt (h2 x hx)
        · exact Nat.lt_succ_self _
  | meta1 a b c =>
    exact ⟨by simpa [countStep, hc] using h1, by simpa [countStep, hc] using h2⟩
  | skipped => exact ⟨by simpa [countStep, hc] using h1, by simpa [countStep, hc] using h2⟩
  | timeHdr a => exact ⟨by simpa [countStep, hc] using h1, by simpa [countStep, hc] using h2⟩
  | meta2 a b c d => exact ⟨by simpa [countStep, hc] using h1, by simpa [countStep, hc] using h2⟩
  | meta3 a b => exact ⟨by simpa [countStep, hc] using h1, by simpa [countStep, hc] using h2⟩
  | meta4 a b c => exact ⟨by simpa [countStep, hc] using h1, by simpa [countStep, hc] using h2⟩
  | meta5 a b c d => exact ⟨by simpa [countStep, hc] using h1, by simpa [countStep, hc] using h2⟩
  | meta6 a b c d => exact ⟨by simpa [countStep, hc] using h1, by simpa [countStep, hc] using h2⟩
  | body => exact ⟨by simpa [countStep, hc] using h1, by simpa [countStep, hc] using h2⟩
  | other => exact ⟨by simpa [countStep, hc] using h1, by simpa [countStep, hc] using h2⟩

theorem foldl_TInv (lines : List String) (t : Nat × Bool × List Nat)
    (h1 : List.Pairwise (· < ·) t.2.2) (h2 : ∀ x ∈ t.2.2, x < t.1) :
    List.Pairwise (· < ·) (lines.foldl countStep t).2.2 ∧
      ∀ x ∈ (lines.foldl countStep t).2.2, x < (lines.foldl countStep t).1 := by
  induction lines generalizing t with
  | nil => exact ⟨h1, h2⟩
  | cons l ls ih =>
    obtain ⟨g1, g2⟩ := countStep_TInv t l h1 h2
    exact ih _ g1 g2

/-- The valid segment indices are strictly increasing. -/
theorem validSegs_pairwise (lines : List String) :
    List.Pairwise (· < ·) (validSegs lines) := by
  obtain ⟨g1, g2⟩ := foldl_TInv lines (0, false, []) (by simp) (by simp)
  unfold validSegs
  cases hb : (lines.foldl countStep (0, false, [])).2.1
  · simpa [hb] using g1
  · simp only [hb, if_pos]
    rw [List.pairwise_append]
    refine ⟨g1, List.pairwise_singleton _ _, ?_⟩
    intro a ha b hb'
    simp only [List.mem_singleton] at hb'
    subst hb'
    exact g2 a ha

theorem is_valid_iff (e : SlowQueryEntry) : e.is_valid = true ↔ e.thread_id ≠ "" := by
  simp [SlowQueryEntry.is_valid]

theorem write_to_csv_thread_id (e : SlowQueryEntry) :
    e.write_to_csv.thread_id = e.thread_id := rfl

theorem write_to_csv_time (e : SlowQueryEntry) : e.write_to_csv.time = e.time := rfl

/-- Every row ever written comes from a flush of a valid record, so it
carries a non-empty thread id. -/
theorem stepLine_rowsInv (st : ConvState) (line : String)
    (h : ∀ r ∈ st.rows, r.thread_id ≠ "") :
    ∀ r ∈ (stepLine st line).rows, r.thread_id ≠ "" := by
  cases hc : classify line with
  | userHost c1 c2 =>
    intro r hr
    simp only [stepLine, hc] at hr
    by_cases hv : st.current_entry.is_valid = true
    · rw [if_pos hv] at hr
      rcases List.mem_append.mp hr with h' | h'
      · exact h r h'
      · rw [List.mem_singleton] at h'
        subst h'
        rw [write_to_csv_thread_id]
        exact (is_valid_iff _).mp hv
    · rw [if_neg hv] at hr
      exact h r hr
  | skipped => simpa [stepLine, hc] using h
  | timeHdr a => simpa [stepLine, hc] using h
  | meta1 a b c => simpa [stepLine, hc] using h
  | meta2 a b c d => simpa [stepLine, hc] using h
  | meta3 a b => simpa [stepLine, hc] using h
  | meta4 a b c => simpa [stepLine, hc] using h
  | meta5 a b c d => simpa [stepLine, hc] using h
  | meta6 a b c d => simpa [stepLine, hc] using h
  | body => simpa [stepLine, hc] using h
  | other => simpa [stepLine, hc] using h

theorem foldl_rowsInv (lines : List String) (st : ConvState)
    (h : ∀ r ∈ st.rows, r.thread_id ≠ "") :
    ∀ r ∈ (lines.foldl stepLine st).rows, r.thread_id ≠ "" := by
  induction lines generalizing st with
  | nil => exact h
  | cons l ls ih => exact ih _ (stepLine_rowsInv _ _ h)

/-- With no connection-header and no `Thread_id` lines, no rows are written
and the in-progress record never becomes valid. -/
theorem foldl_no_records (lines : List String) (st : ConvState)
    (hl : ∀ l ∈ lines, (classify l).isUserHostB = false ∧ (classify l).isMeta1B = false)
    (h0 : st.rows = []) (h1 : st.current_entry.thread_id = "") :
    (lines.foldl stepLine st).rows = [] ∧
      (lines.foldl stepLine st).current_entry.thread_id = "" := by
  induction lines generalizing st with
  | nil => exact ⟨h0, h1⟩
  | cons l ls ih =>
    have hl' := hl l (List.mem_cons_self _ _)
    have hstep : (stepLine st l).rows = [] ∧ (stepLine st l).current_entry.thread_id = "" := by
      cases hc : classify l with
      | userHost c1 c2 => simp [hc, LineKind.isUserHostB] at hl'
      | meta1 a b c => simp [hc, LineKind.isMeta1B] at hl'
      | skipped => simpa [stepLine, hc] using ⟨h0, h1⟩
      | timeHdr a => simpa [stepLine, hc] using ⟨h0, h1⟩
      | meta2 a b c d => simpa [stepLine, hc] using ⟨h0, h1⟩
      | meta3 a b => simpa [stepLine, hc] using ⟨h0, h1⟩
      | meta4 a b c => simpa [stepLine, hc] using ⟨h0, h1⟩
      | meta5 a b c d => simpa [stepLine, hc] using ⟨h0, h1⟩
      | meta6 a b c d => simpa [stepLine, hc] using ⟨h0, h1⟩
      | body => simpa [stepLine, hc] using ⟨h0, h1⟩
      | other => simpa [stepLine, hc] using ⟨h0, h1⟩
    exact ih _ (fun x hx => hl x (List.mem_cons_of_mem _ hx)) hstep.1 hstep.2

/-- Lines that are not time headers leave the sticky time untouched. -/
theorem stepLine_last_seen (st : ConvState) (line : String)
    (h : (classify line).isTimeB = false) :
    (stepLine st line).last_seen_time = st.last_seen_time := by
  cases hc : classify line with
  | timeHdr a => simp [hc, LineKind.isTimeB] at h
  | skipped => simp [stepLine, hc]
  | userHost a b => simp [stepLine, hc]
  | meta1 a b c => simp [stepLine, hc]
  | meta2 a b c d => simp [stepLine, hc]
  | meta3 a b => simp [stepLine, hc]
  | meta4 a b c => simp [stepLine, hc]
  | meta5 a b c d => simp [stepLine, hc]
  | meta6 a b c d => simp [stepLine, hc]
  | body => simp [stepLine, hc]
  | other => simp [stepLine, hc]

theorem foldl_last_seen (lines : List String) (st : ConvState)
    (h : ∀ l ∈ lines, (classify l).isTimeB = false) :
    (lines.foldl stepLine st).last_seen_time = st.last_seen_time := by
  induction lines generalizing st with
  | nil => rfl
  | cons l ls ih =>
    rw [List.foldl_cons, ih _ (fun x hx => h x (List.mem_cons_of_mem _ hx)),
      stepLine_last_seen _ _ (h l (List.mem_cons_self _ _))]

/-- A connection header seeds the fresh record's time from the sticky time
and leaves the sticky time unchanged. -/
theorem stepLine_userHost_time (st : ConvState) (line c1 c2 : String)
    (h : classify line = .userHost c1 c2) :
    (stepLine st line).current_entry.time = st.last_seen_time ∧
      (stepLine st line).last_seen_time = st.last_seen_time := by
  constructor <;> simp [stepLine, h]

theorem digitChar_mod_isDigit (x : Nat) : (Nat.digitChar (x % 10)).isDigit = true :=
  (by decide : ∀ m : Fin 10, (Nat.digitChar m.val).isDigit = true)
    ⟨x % 10, Nat.mod_lt _ (by decide)⟩

/-- The chrono output format always has the normalized
`yyyy-mm-dd HH:MM:SS` shape. -/
theorem fmtTs_normalized (y mo d h mi s : Nat) :
    isNormalizedTs (fmtTs y mo d h mi s) = true := by
  simp [isNormalizedTs, fmtTs, pad4, pad2, digitChar_mod_isDigit]

/-- A successful `format_log_time` yields a normalized timestamp. -/
theorem format_log_time_normalized (s r : String) (h : format_log_time s = some r) :
    isNormalizedTs r = true := by
  simp only [format_log_time] at h
  repeat' split at h
  all_goals simp at h
  all_goals
    subst h
    exact fmtTs_normalized _ _ _ _ _ _

/-- A time-header line only replaces the sticky time (with the normalized
timestamp, or the raw trimmed capture when formatting fails). -/
theorem stepLine_timeHdr (st : ConvState) (line cap : String)
    (h : classify line = .timeHdr cap) :
    stepLine st line =
      { st with last_seen_time := (format_log_time (rustTrim cap)).getD (rustTrim cap) } := by
  simp [stepLine, h]

/-! Claim theorems. -/

def c1cexLine : String := "# Thread_id: 5  Schema: test  QC_hit: No"
def c2cexLine : String := "# Thread_id: 7  Schema: acct  QC_hit: Yes"
def c2wLine : String := "SELECT 1;"

/-- C1 (amended): for every input, the number of emitted data rows equals
the number of valid record segments — the records started by
connection-header lines together with the implicit initial record — which is
the claimed count plus one exactly when a Thread_id metadata line precedes
the first connection header. -/
theorem c1_rows_eq_valid_segments (lines : List String) :
    (convert lines).length = (validSegs lines).length := by
  obtain ⟨h1, h2⟩ := foldl_SRel lines initState (0, false, []) SRel_init
  simp only [convert, processLines, validSegs]
  rw [h1]
  cases hb : (List.foldl countStep (0, false, []) lines).2.1 <;> simp [hb, h2]

/-- C1 fails as stated: one Thread_id metadata line and no connection header
emits one row, while the number of connection-header lines with a valid
record is zero. -/
theorem c1_cex :
    (convert [c1cexLine]).length = 1 ∧ specConnValidRowCount [c1cexLine] = 0 := by
  constructor <;> decide

/-- C2 (amended): a record whose thread-id field is empty is never emitted;
and an input with no connection-header lines and no Thread_id metadata lines
emits no data rows. -/
theorem c2_no_invalid_row_emitted (lines : List String) :
    (∀ r ∈ convert lines, r.thread_id ≠ "") ∧
      ((∀ l ∈ lines, (classify l).isUserHostB = false ∧ (classify l).isMeta1B = false) →
        convert lines = []) := by
  constructor
  · intro r hr
    simp only [convert, processLines] at hr
    by_cases hv : (lines.foldl stepLine initState).current_entry.is_valid = true
    · rw [if_pos hv] at hr
      rcases List.mem_append.mp hr with h' | h'
      · exact foldl_rowsInv lines initState (by simp [initState]) r h'
      · rw [List.mem_singleton] at h'
        subst h'
        rw [write_to_csv_thread_id]
        exact (is_valid_iff _).mp hv
    · rw [if_neg hv] at hr
      exact foldl_rowsInv lines initState (by simp [initState]) r hr
  · intro hl
    obtain ⟨h0, h1⟩ := foldl_no_records lines initState hl rfl rfl
    have hv : (lines.foldl stepLine initState).current_entry.is_valid = false := by
      simp [SlowQueryEntry.is_valid, h1]
    simp only [convert, processLines]
    rw [hv]
    simpa using h0

/-- C2 fails as stated: an input with zero connection-header lines can still
emit a data row, because a Thread_id metadata line makes the implicit
initial record valid. -/
theorem c2_cex :
    List.countP (fun l => (classify l).isUserHostB) [c2cexLine] = 0 ∧
      (convert [c2cexLine]).length = 1 := by
  constructor <;> decide

/-- Witness for the amended C2 at a concrete input. -/
theorem c2_witness :
    (∀ r ∈ convert [c2wLine], r.thread_id ≠ "") ∧ convert [c2wLine] = [] :=
  ⟨(c2_no_invalid_row_emitted [c2wLine]).1,
   (c2_no_invalid_row_emitted [c2wLine]).2 (by decide)⟩

/-- C3: records in progress are identified by segment index (0 for the
implicit initial record, i for the record started by the i-th connection
header).  The run emits the same state as the uninstrumented loop; the
flushed-record list is exactly the list of valid segments, so a record is
flushed exactly once when valid — at the next connection header or at
end-of-input — and the list is strictly increasing and duplicate-free, so no
record is ever flushed twice (never both). -/
theorem c3_flush_exactly_once (lines : List String) :
    (ghostRun lines).base = processLines lines ∧
      (ghostRun lines).flushed = validSegs lines ∧
      List.Pairwise (· < ·) (ghostRun lines).flushed ∧
      (ghostRun lines).flushed.Nodup := by
  obtain ⟨⟨hv, hlen⟩, hseg, hfl⟩ :=
    foldlG_GRel lines { base := initState, seg := 0, flushed := [] } (0, false, [])
      ⟨SRel_init, rfl, rfl⟩
  have hbase := foldlG_base lines { base := initState, seg := 0, flushed := [] }
  have hflush : (ghostRun lines).flushed = validSegs lines := by
    simp only [ghostRun, validSegs]
    rw [hv]
    cases hb : (List.foldl countStep (0, false, []) lines).2.1 <;> simp [hb, hfl, hseg]
  have hbase' : (List.foldl stepLineG { base := initState, seg := 0, flushed := [] } lines).base =
      List.foldl stepLine initState lines := hbase
  have hmain : (ghostRun lines).base = processLines lines := by
    simp only [ghostRun, processLines]
    rw [hbase']
    cases hb : (List.foldl stepLine initState lines).current_entry.is_valid <;> simp [hb, hbase']
  refine ⟨hmain, hflush, ?_, ?_⟩
  · rw [hflush]
    exact validSegs_pairwise lines
  · rw [hflush]
    exact List.Pairwise.imp (fun h => Nat.ne_of_lt h) (validSegs_pairwise lines)

/-- Lines other than connection headers leave the in-progress record's time
field untouched (only a flush/replace can change it). -/
theorem stepLine_keeps_entry_time (st : ConvState) (line : String)
    (h : (classify line).isUserHostB = false) :
    (stepLine st line).current_entry.time = st.current_entry.time := by
  cases hc : classify line with
  | userHost a b => simp [hc, LineKind.isUserHostB] at h
  | skipped => simp [stepLine, hc]
  | timeHdr a => simp [stepLine, hc]
  | meta1 a b c => simp [stepLine, hc]
  | meta2 a b c d => simp [stepLine, hc]
  | meta3 a b => simp [stepLine, hc]
  | meta4 a b c => simp [stepLine, hc]
  | meta5 a b c d => simp [stepLine, hc]
  | meta6 a b c d => simp [stepLine, hc]
  | body => simp [stepLine, hc]
  | other => simp [stepLine, hc]

def c4pre1 : String := "# Time: 230101 10:00:00"
def c4h1 : String := "# User@Host: alice @ hostA"
def c4mid1 : String := "# Thread_id: 11  Schema: s1  QC_hit: No"
def c4h2 : String := "# User@Host: bob @ hostB"

/-- C4: a freshly started record's time equals the sticky time; no line
except a time header changes the sticky time (it is never cleared between
records); no line except a connection header changes the in-progress
record's time; an emitted row keeps the record's time; and for two
connection headers with no intervening time header, the records started at
both carry the sticky time from before the first. -/
theorem c4_sticky_time :
    (∀ (st : ConvState) (line c1 c2 : String), classify line = .userHost c1 c2 →
      (stepLine st line).current_entry.time = st.last_seen_time ∧
        (stepLine st line).last_seen_time = st.last_seen_time) ∧
    (∀ (st : ConvState) (line : String), (classify line).isTimeB = false →
      (stepLine st line).last_seen_time = st.last_seen_time) ∧
    (∀ (st : ConvState) (line : String), (classify line).isUserHostB = false →
      (stepLine st line).current_entry.time = st.current_entry.time) ∧
    (∀ e : SlowQueryEntry, e.write_to_csv.time = e.time) ∧
    (∀ (pre mid : List String) (ha hb c1 c2 d1 d2 : String),
      classify ha = .userHost c1 c2 → classify hb = .userHost d1 d2 →
      (∀ l ∈ mid, (classify l).isTimeB = false) →
      ((stepLine (List.foldl stepLine initState pre) ha).current_entry.time =
          (List.foldl stepLine initState pre).last_seen_time ∧
        (stepLine (List.foldl stepLine (stepLine (List.foldl stepLine initState pre) ha) mid)
            hb).current_entry.time =
          (List.foldl stepLine initState pre).last_seen_time)) := by
  refine ⟨fun st line c1 c2 h => stepLine_userHost_time st line c1 c2 h,
    stepLine_last_seen, stepLine_keeps_entry_time, write_to_csv_time,
    fun pre mid ha hb c1 c2 d1 d2 hca hcb hmid => ⟨?_, ?_⟩⟩
  · exact (stepLine_userHost_time _ ha c1 c2 hca).1
  · rw [(stepLine_userHost_time _ hb d1 d2 hcb).1, foldl_last_seen mid _ hmid,
      (stepLine_userHost_time _ ha c1 c2 hca).2]

/-- Witness for C4 at a concrete two-header input. -/
theorem c4_witness :
    (stepLine (List.foldl stepLine initState [c4pre1]) c4h1).current_entry.time =
        (List.foldl stepLine initState [c4pre1]).last_seen_time ∧
      (stepLine (List.foldl stepLine (stepLine (List.foldl stepLine initState [c4pre1]) c4h1)
          [c4mid1]) c4h2).current_entry.time =
        (List.foldl stepLine initState [c4pre1]).last_seen_time :=
  c4_sticky_time.2.2.2.2 [c4pre1] [c4mid1] c4h1 c4h2 "alice" "hostA" "bob" "hostB"
    (by decide) (by decide) (by decide)

def c5wLine : String := "# Time: 230101 10:00:00"
def c5wLine2 : String := "# Time: 2301 01 10: 00:00"

/-- C5: a time-header line replaces the sticky time with the normalized
`yyyy-mm-dd HH:MM:SS` rendering of its raw trimmed timestamp — falling back
to the raw trimmed string itself when formatting fails — and changes nothing
else in the state; a successful formatting always has the normalized shape. -/
theorem c5_time_formatting :
    (∀ (st : ConvState) (line cap : String), classify line = .timeHdr cap →
      stepLine st line =
        { st with last_seen_time := (format_log_time (rustTrim cap)).getD (rustTrim cap) }) ∧
    (∀ s r : String, format_log_time s = some r → isNormalizedTs r = true) :=
  ⟨stepLine_timeHdr, format_log_time_normalized⟩

/-- Witness for C5 at two concrete time-header lines; the second has
whitespace between the numeric fields, which chrono's parser (and the
model) skips before each field, so it is normalized rather than falling
back to the raw string. -/
theorem c5_witness :
    stepLine initState c5wLine =
        { initState with last_seen_time := "2023-01-01 10:00:00" } ∧
      stepLine initState c5wLine2 =
        { initState with last_seen_time := "2023-01-01 10:00:00" } ∧
      isNormalizedTs "2023-01-01 10:00:00" = true := by
  refine ⟨?_, ?_, ?_⟩
  · rw [c5_time_formatting.1 initState c5wLine "230101 10:00:00" (by decide)]
    decide
  · rw [c5_time_formatting.1 initState c5wLine2 "2301 01 10: 00:00" (by decide)]
    decide
  · exact c5_time_formatting.2 "230101 10:00:00" "2023-01-01 10:00:00" (by decide)

def c6buf : String := "SET timestamp=123;\nuse mydb;\nSELECT 1;"
def c6entry : SlowQueryEntry := { SlowQueryEntry.mkDefault with query := c6buf }

/-- C6: on a record whose query buffer is exactly the three directive lines,
the cleanup emits the timestamp directive, the schema directive, and the
bare query. -/
theorem c6_cleanup_round_trip (e : SlowQueryEntry) (h : e.query = c6buf) :
    e.write_to_csv.set_timestamp = "SET timestamp=123;" ∧
      e.write_to_csv.use_schema = "use mydb;" ∧
      e.write_to_csv.query = "SELECT 1;" := by
  refine ⟨?_, ?_, ?_⟩
  · show (cleanupQuery e.query).set_timestamp_str = _
    rw [h]
    decide
  · show (cleanupQuery e.query).use_schema_str = _
    rw [h]
    decide
  · show (cleanupQuery e.query).remaining_query = _
    rw [h]
    decide

/-- Witness for C6 at the concrete record. -/
theorem c6_witness :
    c6entry.write_to_csv.set_timestamp = "SET timestamp=123;" ∧
      c6entry.write_to_csv.use_schema = "use mydb;" ∧
      c6entry.write_to_csv.query = "SELECT 1;" :=
  c6_cleanup_round_trip c6entry rfl

theorem strMk_data (s : String) : String.mk s.data = s := rfl

/-- If a buffer matches neither directive pattern, cleanup extracts nothing
and leaves it unchanged. -/
theorem cleanupQuery_noMatch (x : String)
    (hs : findPat matchSetTs x.data = none) (hu : findPat matchUse x.data = none) :
    cleanupQuery x =
      { set_timestamp_str := "", use_schema_str := "", remaining_query := x } := by
  unfold cleanupQuery
  simp only [hs, hu]

def c7q : String := "SET timestamp=1;\nSET timestamp=2;\nSELECT 1;"
def c7w : String := "SELECT 2;"

/-- C7 fails as stated: on a buffer holding two timestamp directives, the
second cleanup application extracts another directive and changes the query
text, so cleanup twice differs from cleanup once. -/
theorem c7_cex :
    (cleanupQuery (cleanupQuery c7q).remaining_query).set_timestamp_str ≠ "" ∧
      (cleanupQuery (cleanupQuery c7q).remaining_query).remaining_query ≠
        (cleanupQuery c7q).remaining_query := by
  constructor <;> decide

/-- C7 (amended): whenever the once-cleaned query field matches neither
directive pattern, the second cleanup application extracts no directive and
leaves the query text unchanged (the code removes only the first match of
each pattern, so a buffer with repeated directives is re-extracted). -/
theorem c7_cleanup_idempotent (q : String)
    (hs : findPat matchSetTs (cleanupQuery q).remaining_query.data = none)
    (hu : findPat matchUse (cleanupQuery q).remaining_query.data = none) :
    cleanupQuery (cleanupQuery q).remaining_query =
      { set_timestamp_str := "", use_schema_str := ""
        remaining_query := (cleanupQuery q).remaining_query } :=
  cleanupQuery_noMatch _ hs hu

/-- Witness for the amended C7 at a concrete buffer. -/
theorem c7_witness :
    cleanupQuery (cleanupQuery c7w).remaining_query =
      { set_timestamp_str := "", use_schema_str := ""
        remaining_query := (cleanupQuery c7w).remaining_query } :=
  c7_cleanup_idempotent c7w (by decide) (by decide)

def sc1 : String := "# Time: 230101 10:00:00"
def sc2 : String := "# User@Host: root[root] @ localhost []"
def sc3 : String := "# Thread_id: 5  Schema: test  QC_hit: No"
def sc4 : String := "# Query_time: 1.5  Lock_time: 0.0  Rows_sent: 1  Rows_examined: 10"
def sc5 : String := "SET timestamp=1672566000;"
def sc6 : String := "SELECT 1;"
def scenario : List String := [sc1, sc2, sc3, sc4, sc5, sc6]

/-- The row the scenario actually produces: the query field keeps the
trailing newline that the accumulator appends after every body line. -/
def c8row : CsvRow :=
  { time := "2023-01-01 10:00:00", user := "root", host := "localhost"
    thread_id := "5", schema := "test", qc_hit := "No"
    set_timestamp := "SET timestamp=1672566000;", use_schema := ""
    query := "SELECT 1;\n"
    query_time := Rat.mk' 3 2, lock_time := 0
    rows_sent := 1, rows_examined := 10, rows_affected := 0, bytes_sent := 0
    tmp_tables := 0, tmp_disk_tables := 0, tmp_table_sizes := 0
    full_scan := "", full_join := "", tmp_table := "", tmp_table_on_disk := ""
    filesort := "", filesort_on_disk := "", merge_passes := 0, priority_queue := "" }

/-- C8 fails only in the query field: the single emitted row's query is the
claimed text followed by a trailing newline. -/
theorem c8_cex :
    (convert scenario).length = 1 ∧
      (convert scenario).map CsvRow.query = ["SELECT 1;\n"] ∧
      ("SELECT 1;\n" : String) ≠ "SELECT 1;" := by
  refine ⟨?_, ?_, ?_⟩ <;> decide

/-- C8 (amended): the six-line scenario emits exactly one row with all the
claimed field values, except that the query field is the claimed text with
a trailing newline. -/
theorem c8_scenario_row : convert scenario = [c8row] := by
  decide

/-- C10: a line matching a skip pattern leaves the loop state — in
particular the query buffer — completely unchanged, even when a record is
in progress and the line does not begin with the comment marker. -/
theorem c10_skip_lines (st : ConvState) (line : String)
    (h : (reSkipped1 line || reSkipped2 line) = true) :
    stepLine st line = st ∧
      (stepLine st line).current_entry.query = st.current_entry.query := by
  have hc : classify line = .skipped := by
    simp [classify, h]
  exact ⟨by simp [stepLine, hc], by simp [stepLine, hc]⟩

def c10skipA : String := "/usr/sbin/mariadbd, Version: 10.11.6-MariaDB-log (MariaDB Server) started with:"
def c10skipB : String := "Tcp port: 3306  Unix socket: /run/mysqld/mysqld.sock"
def c10skipC : String := "Time                Id Command    Argument"
def c10conn : String := "# User@Host: carol @ hostC"

/-- A state with a record in progress, for the C10 witness. -/
def c10state : ConvState := stepLine initState c10conn

/-- Witness for C10 on all three skip shapes, mid-record. -/
theorem c10_witness :
    stepLine c10state c10skipA = c10state ∧
      stepLine c10state c10skipB = c10state ∧
      stepLine c10state c10skipC = c10state :=
  ⟨(c10_skip_lines c10state c10skipA (by decide)).1,
   (c10_skip_lines c10state c10skipB (by decide)).1,
   (c10_skip_lines c10state c10skipC (by decide)).1⟩

/-! Composition lemmas used to evaluate the matchers on a line with an
abstract middle segment (claim C9). -/

theorem takedrop_stop (p : Char → Bool) (q r : List Char) (h : q.dropWhile p ≠ []) :
    (q ++ r).takeWhile p = q.takeWhile p ∧ (q ++ r).dropWhile p = q.dropWhile p ++ r := by
  induction q with
  | nil => simp at h
  | cons c t ih =>
    by_cases hc : p c
    · have h' : t.dropWhile p ≠ [] := by
        simpa [List.dropWhile_cons, hc] using h
      obtain ⟨ih1, ih2⟩ := ih h'
      constructor
      · simp [List.takeWhile_cons, hc, ih1]
      · simp [List.dropWhile_cons, hc, ih2]
    · constructor
      · simp [List.takeWhile_cons, hc]
      · simp [List.dropWhile_cons, hc]

theorem dropWhile_append_stop (p : Char → Bool) (q r : List Char) (h : q.dropWhile p ≠ []) :
    (q ++ r).dropWhile p = q.dropWhile p ++ r :=
  (takedrop_stop p q r h).2

theorem stripLit_append_some (p q r s : List Char) (h : stripLit p q = some s) :
    stripLit p (q ++ r) = some (s ++ r) := by
  induction p generalizing q with
  | nil =>
    obtain rfl : q = s := by simpa [stripLit] using h
    rfl
  | cons a ps ih =>
    cases q with
    | nil => simp [stripLit] at h
    | cons c cs =>
      by_cases hc : c = a
      · simp only [stripLit, List.cons_append, if_pos hc] at h ⊢
        exact ih cs h
      · simp [stripLit, hc] at h

theorem stripLit_append_none (p q r : List Char) (hlen : p.length ≤ q.length)
    (h : stripLit p q = none) : stripLit p (q ++ r) = none := by
  induction p generalizing q with
  | nil => simp [stripLit] at h
  | cons a ps ih =>
    cases q with
    | nil => simp at hlen
    | cons c cs =>
      by_cases hc : c = a
      · simp only [stripLit, List.cons_append, if_pos hc] at h ⊢
        exact ih cs (by simpa using hlen) h
      · simp [stripLit, List.cons_append, hc]

theorem numDotPlus_append_stop (q a b r : List Char)
    (h : numDotPlus q = some (a, b)) (hb : b ≠ []) :
    numDotPlus (q ++ r) = some (a, b ++ r) := by
  unfold numDotPlus at h ⊢
  split at h
  · exact absurd h (by simp)
  · obtain ⟨rfl, rfl⟩ : q.takeWhile isNumDot = a ∧ q.dropWhile isNumDot = b := by
      simpa using h
    rw [(takedrop_stop isNumDot q r hb).1, (takedrop_stop isNumDot q r hb).2]
    simp_all

theorem digitsPlus_append_stop (q a b r : List Char)
    (h : digitsPlus q = some (a, b)) (hb : b ≠ []) :
    digitsPlus (q ++ r) = some (a, b ++ r) := by
  unfold digitsPlus at h ⊢
  split at h
  · exact absurd h (by simp)
  · obtain ⟨rfl, rfl⟩ : q.takeWhile Char.isDigit = a ∧ q.dropWhile Char.isDigit = b := by
      simpa using h
    rw [(takedrop_stop Char.isDigit q r hb).1, (takedrop_stop Char.isDigit q r hb).2]
    simp_all

theorem wsPlus_append_stop (q qs r : List Char)
    (h : wsPlus q = some qs) (hqs : qs ≠ []) :
    wsPlus (q ++ r) = some (qs ++ r) := by
  cases q with
  | nil => simp [wsPlus] at h
  | cons c t =>
    simp only [wsPlus, List.cons_append] at h ⊢
    split at h
    · obtain rfl : t.dropWhile isWS = qs := by simpa using h
      rename_i hws
      rw [if_pos hws, dropWhile_append_stop isWS t r hqs]
    · exact absurd h (by simp)

/-! Claim C9: a metadata line with a malformed numeric field. -/

def badPre : List Char := "# Query_time: 1.5  Lock_time: 0.0  Rows_sent: ".data
def badSuf : List Char := "  Rows_examined: 10".data

/-- The family of `Query_time` metadata lines whose `Rows_sent` value is the
arbitrary string `v`. -/
def badLine (v : String) : String := String.mk (badPre ++ (v.data ++ badSuf))

def bq1 : List Char := "1.5  Lock_time: 0.0  Rows_sent: ".data
def bq2 : List Char := "  Lock_time: 0.0  Rows_sent: ".data
def bq3 : List Char := "Lock_time: 0.0  Rows_sent: ".data
def bq4 : List Char := "0.0  Rows_sent: ".data
def bq5 : List Char := "  Rows_sent: ".data
def bq6 : List Char := "Rows_sent: ".data
def bqt1 : List Char := "1.5".data
def bqt2 : List Char := "0.0".data

theorem digitsPlus_bad (v : String) (hv : (v.data.headD ' ').isDigit = false) :
    digitsPlus (v.data ++ badSuf) = none := by
  cases hvd : v.data with
  | nil => decide
  | cons c t =>
    rw [hvd] at hv
    simp only [List.headD_cons] at hv
    unfold digitsPlus
    simp [List.takeWhile_cons, hv]

theorem optSomeBind {α β : Type} (a : α) (f : α → Option β) : (some a >>= f) = f a := rfl

theorem reMetadata2_badLine (v : String) (hv : (v.data.headD ' ').isDigit = false) :
    reMetadata2 (badLine v) = none := by
  have e1 : stripLit litQueryTime (badLine v).data = some (bq1 ++ (v.data ++ badSuf)) :=
    stripLit_append_some litQueryTime badPre (v.data ++ badSuf) bq1 (by decide)
  have e2 : numDotPlus (bq1 ++ (v.data ++ badSuf)) = some (bqt1, bq2 ++ (v.data ++ badSuf)) :=
    numDotPlus_append_stop bq1 bqt1 bq2 _ (by decide) (by decide)
  have e3 : wsPlus (bq2 ++ (v.data ++ badSuf)) = some (bq3 ++ (v.data ++ badSuf)) :=
    wsPlus_append_stop bq2 bq3 _ (by decide) (by decide)
  have e4 : stripLit litLockTime (bq3 ++ (v.data ++ badSuf)) = some (bq4 ++ (v.data ++ badSuf)) :=
    stripLit_append_some litLockTime bq3 _ bq4 (by decide)
  have e5 : numDotPlus (bq4 ++ (v.data ++ badSuf)) = some (bqt2, bq5 ++ (v.data ++ badSuf)) :=
    numDotPlus_append_stop bq4 bqt2 bq5 _ (by decide) (by decide)
  have e6 : wsPlus (bq5 ++ (v.data ++ badSuf)) = some (bq6 ++ (v.data ++ badSuf)) :=
    wsPlus_append_stop bq5 bq6 _ (by decide) (by decide)
  have e7 : stripLit litRowsSent (bq6 ++ (v.data ++ badSuf)) = some (v.data ++ badSuf) := by
    simpa using stripLit_append_some litRowsSent bq6 (v.data ++ badSuf) [] (by decide)
  have e8 : digitsPlus (v.data ++ badSuf) = none := digitsPlus_bad v hv
  unfold reMetadata2
  simp only [e1, e2, e3, e4, e5, e6, e7, e8, optSomeBind]

/-- A malformed-`Rows_sent` metadata line matches none of the patterns. -/
theorem classify_badLine (v : String) (hv : (v.data.headD ' ').isDigit = false) :
    classify (badLine v) = .other := by
  have hdata : (badLine v).data = badPre ++ (v.data ++ badSuf) := rfl
  have h_sk1 : reSkipped1 (badLine v) = false := by
    unfold reSkipped1
    rw [hdata]
    simp only [List.reverse_append, List.append_assoc]
    rw [dropWhile_append_stop isWS badSuf.reverse _ (by decide),
      stripLit_append_none litStartedWith.reverse (badSuf.reverse.dropWhile isWS) _
        (by decide) (by decide)]
    rfl
  have h_sk2 : reSkipped2 (badLine v) = false := by
    unfold reSkipped2
    rw [hdata, stripLit_append_none litTcpPort badPre _ (by decide) (by decide),
      stripLit_append_none litTimeWord badPre _ (by decide) (by decide)]
    rfl
  have h_t : reTime (badLine v) = none := by
    unfold reTime
    rw [hdata, stripLit_append_none litTime badPre _ (by decide) (by decide)]
    rfl
  have h_uh : reUserHost (badLine v) = none := by
    unfold reUserHost
    rw [hdata, stripLit_append_none litUserHost badPre _ (by decide) (by decide)]
  have h_m1 : reMetadata1 (badLine v) = none := by
    unfold reMetadata1
    rw [hdata, stripLit_append_none litThreadId badPre _ (by decide) (by decide)]
  have h_m2 : reMetadata2 (badLine v) = none := reMetadata2_badLine v hv
  have h_m3 : reMetadata3 (badLine v) = none := by
    unfold reMetadata3
    rw [hdata, stripLit_append_none litRowsAffected badPre _ (by decide) (by decide)]
  have h_m4 : reMetadata4 (badLine v) = none := by
    unfold reMetadata4
    rw [hdata, stripLit_append_none litTmpTables badPre _ (by decide) (by decide)]
  have h_m5 : reMetadata5 (badLine v) = none := by
    unfold reMetadata5
    rw [hdata, stripLit_append_none litFullScan badPre _ (by decide) (by decide)]
  have h_m6 : reMetadata6 (badLine v) = none := by
    unfold reMetadata6
    rw [hdata, stripLit_append_none litFilesort badPre _ (by decide) (by decide)]
  have h_hash : startsHash (badLine v) = true := rfl
  unfold classify
  rw [h_sk1, h_sk2, h_t, h_uh, h_m1, h_m2, h_m3, h_m4, h_m5, h_m6]
  simp [h_hash]

/-- C9: a `Query_time` metadata line whose `Rows_sent` value does not begin
with a digit (for example `abc`) matches no pattern, so the whole line is
silently ignored: the state — in particular the `rows_sent` field, which
keeps its default `0` — is unchanged, parsing does not abort, and the
remaining lines are processed exactly as if the malformed line were absent. -/
theorem c9_malformed_numeric (v : String) (hv : (v.data.headD ' ').isDigit = false) :
    classify (badLine v) = .other ∧
      (∀ st : ConvState, stepLine st (badLine v) = st) ∧
      (∀ (st : ConvState) (rest : List String),
        List.foldl stepLine st (badLine v :: rest) = List.foldl stepLine st rest) := by
  have hcl := classify_badLine v hv
  refine ⟨hcl, fun st => by simp [stepLine, hcl], fun st rest => ?_⟩
  rw [List.foldl_cons]
  simp [stepLine, hcl]

def c9v : String := "abc"

/-- Witness for C9 at the claim's own example value. -/
theorem c9_witness :
    classify (badLine c9v) = .other ∧ stepLine initState (badLine c9v) = initState :=
  ⟨(c9_malformed_numeric c9v (by decide)).1,
   (c9_malformed_numeric c9v (by decide)).2.1 initState⟩
